import Mathlib

/-!
# ChakraWatch core — shallow embedding and verification

This file embeds the core of the ChakraWatch backend (`app.py`) in Lean 4 and
proves properties of the embedded code.

Conventions of the embedding:
* Python strings are Lean `String`s; character classes (`\w`, `[a-zA-Z0-9]`,
  `str.lower`, …) are modelled at their ASCII meaning, which is exact for all
  inputs appearing in the program's data and in the properties below.
* Python `re` matching (as used by `ThreatAnalyzer`) is modelled by a small
  backtracking engine over an abstract syntax of exactly the constructs the
  program's patterns use, with Python's leftmost / greedy / preference-order
  semantics and non-overlapping `findall` scanning.
* Python floats produced by the classifier (`count / 3.0`, `min(..., 1.0)`,
  `0.3`) are modelled as exact rationals `ℚ`.
* The SQLAlchemy/SQLite layer is modelled by explicit state passing over a
  `List Article` store; a transactional batch commit either installs all
  pending rows or fails, in which case `session.rollback()` restores the
  pre-batch store.
-/

namespace ChakraWatch

/-! ## A model of Python `re` for the program's patterns

`mruns` returns every way the expression can match a prefix of the remaining
input, in the engine's preference order (greedy quantifiers, left-biased
alternation), so that `List.head?` of the result is the match Python's
backtracking engine produces. -/

/-- Python `\w` (ASCII fragment): letters, digits, underscore. -/
def isWordChar (c : Char) : Bool := c.isAlphanum || c == '_'

/-- Word-character test on an optional character; absent counts as non-word. -/
def wordOpt : Option Char → Bool
  | none => false
  | some c => isWordChar c

/-- Python `\b`: the word-character status differs on the two sides. -/
def atBoundary (prev next : Option Char) : Bool := wordOpt prev != wordOpt next

/-- Matching state: remaining input, previous character (for `\b`),
captured groups (later entries shadowed by earlier ones). -/
structure MS where
  rest : List Char
  prev : Option Char
  caps : List (Nat × List Char)

/-- Abstract syntax for the regex constructs used in `app.py`'s patterns.
All definitions over it are structurally recursive so that the kernel can
evaluate matches on concrete inputs. -/
inductive RE where
  | eps
  | cls (p : Char → Bool)
  | seq (a b : RE)
  | alt (a b : RE)
  | opt (a : RE)
  | star (a : RE)
  | group (i : Nat) (a : RE)
  | wb

/-- A greedy `*` loop: iterate `body` as long as it consumes input, preferring
more iterations, stopping after at most `fuel` rounds.  Callers pass
`remaining length + 1`, which never binds because only consuming iterations
recurse (as in CPython, which stops a star that stopped consuming input). -/
def starRun (body : MS → List MS) : Nat → MS → List MS
  | 0, s => [s]
  | f + 1, s =>
    ((body s).filter (fun s' => s'.rest.length < s.rest.length)).flatMap
      (fun s' => starRun body f s') ++ [s]

/-- All prefix matches of `re` from state `s`, in the backtracking engine's
preference order (greedy quantifiers, left-biased alternation): `List.head?`
of the result is the match Python produces. -/
def mruns : RE → MS → List MS
  | .eps, s => [s]
  | .wb, s => if atBoundary s.prev s.rest.head? then [s] else []
  | .cls p, s =>
    match s.rest with
    | [] => []
    | c :: r => if p c then [⟨r, some c, s.caps⟩] else []
  | .seq a b, s => (mruns a s).flatMap (fun s' => mruns b s')
  | .alt a b, s => mruns a s ++ mruns b s
  | .opt a, s => mruns a s ++ [s]
  | .star a, s => starRun (mruns a) (s.rest.length + 1) s
  | .group i a, s =>
    (mruns a s).map (fun s' =>
      ⟨s'.rest, s'.prev, (i, s.rest.take (s.rest.length - s'.rest.length)) :: s'.caps⟩)

/-- `a{n}`: `n` copies in sequence. -/
def repExact : Nat → RE → RE
  | 0, _ => .eps
  | n + 1, a => .seq a (repExact n a)

/-- Up to `n` further copies, greedily preferring to consume. -/
def repUpTo : Nat → RE → RE
  | 0, _ => .eps
  | n + 1, a => .opt (.seq a (repUpTo n a))

/-- The greedy counted repetition `a{lo,hi}`. -/
def repRange (lo hi : Nat) (a : RE) : RE := .seq (repExact lo a) (repUpTo (hi - lo) a)

/-- The match Python's engine yields at this position, if any. -/
def matchFirst (re : RE) (prev : Option Char) (rest : List Char) : Option MS :=
  (mruns re ⟨rest, prev, []⟩).head?

/-- `re.findall` scanning with explicit fuel (structural recursion); every
step consumes at least one input character, so `length + 1` fuel is exact. -/
def findallAuxF (re : RE) : Nat → Option Char → List Char →
    List (List Char × List (Nat × List Char))
  | 0, _, _ => []
  | f + 1, prev, rest =>
    match matchFirst re prev rest with
    | some s' =>
      if s'.rest.length < rest.length then
        (rest.take (rest.length - s'.rest.length), s'.caps) ::
          findallAuxF re f s'.prev s'.rest
      else
        match rest with
        | [] => [([], s'.caps)]
        | c :: r => ([], s'.caps) :: findallAuxF re f (some c) r
    | none =>
      match rest with
      | [] => []
      | c :: r => findallAuxF re f (some c) r

/-- `re.findall` scanning: leftmost non-overlapping matches; an empty match is
emitted and the scan advances one character (Python behaviour). Each element
is the matched text together with its group captures. -/
def findallAux (re : RE) (prev : Option Char) (rest : List Char) :
    List (List Char × List (Nat × List Char)) :=
  findallAuxF re (rest.length + 1) prev rest

/-- `re.findall(pattern, text)` for a pattern with no capture groups:
the list of full matched substrings. -/
def findallStr (re : RE) (text : List Char) : List String :=
  (findallAux re none text).map (fun m => ⟨m.1⟩)

/-- Group `i`'s captured text, `''` when the group did not participate
(as Python's `findall` reports it). -/
def capStr (caps : List (Nat × List Char)) (i : Nat) : String :=
  match caps.find? (fun c => c.1 == i) with
  | some c => ⟨c.2⟩
  | none => ""

/-- `re.findall` for a pattern with exactly three capture groups: Python
returns a list of 3-tuples of the groups, not the matched substrings. -/
def findallTuples3 (re : RE) (text : List Char) : List (String × String × String) :=
  (findallAux re none text).map (fun m => (capStr m.2 1, capStr m.2 2, capStr m.2 3))

/-- `re.search(pattern, text) is not None`. -/
def research (re : RE) (text : List Char) : Bool :=
  !(findallAux re none text).isEmpty

/-- A literal string (the image of `re.escape` on text without metacharacters). -/
def litRE (s : String) : RE :=
  s.data.foldr (fun c r => .seq (.cls (fun x => x == c)) r) .eps

/-- A case-insensitive literal (a literal under `re.IGNORECASE`). -/
def litCIRE (s : String) : RE :=
  s.data.foldr (fun c r => .seq (.cls (fun x => x.toLower == c.toLower)) r) .eps

/-- `a|b|c|…` with Python's left-biased alternation. -/
def altList (rs : List RE) : RE :=
  match rs with
  | [] => .cls (fun _ => false)
  | [r] => r
  | r :: rest => .alt r (altList rest)

/-- Python `str.lower` (ASCII fragment), kept as an explicit `List.map` so the
proofs can compute with it. -/
def pyLower (s : String) : String := ⟨s.data.map Char.toLower⟩

/-! ## `Settings` (app.py 88–143) -/

/-- `Settings.MAX_ARTICLES_PER_SOURCE`. -/
def MAX_ARTICLES_PER_SOURCE : Nat := 20

/-- `Settings.THREAT_KEYWORDS["critical"]`. -/
def criticalKeywords : List String :=
  ["zero-day", "0day", "critical vulnerability", "ransomware",
   "data breach", "supply chain attack", "rce", "remote code execution",
   "critical security flaw", "emergency patch", "actively exploited"]

/-- `Settings.THREAT_KEYWORDS["high"]`. -/
def highKeywords : List String :=
  ["vulnerability", "exploit", "malware", "phishing", "apt",
   "backdoor", "trojan", "sql injection", "privilege escalation",
   "security flaw", "code execution", "buffer overflow"]

/-- `Settings.THREAT_KEYWORDS["medium"]`. -/
def mediumKeywords : List String :=
  ["security update", "patch", "warning", "alert", "mitigation",
   "workaround", "security advisory", "authentication bypass",
   "information disclosure", "denial of service"]

/-- `Settings.THREAT_KEYWORDS["low"]`. -/
def lowKeywords : List String :=
  ["security news", "announcement", "report", "advisory",
   "awareness", "security tip", "best practices"]

/-! ## `ThreatAnalyzer.analyze_threat_level` (app.py 253–273) -/

/-- The four threat levels of the `ThreatLevel` enum. -/
inductive ThreatLevel where
  | low
  | medium
  | high
  | critical
deriving DecidableEq, Repr

/-- `ThreatLevel.value`, the string stored in the database. -/
def ThreatLevel.toStr : ThreatLevel → String
  | .low => "low"
  | .medium => "medium"
  | .high => "high"
  | .critical => "critical"

/-- `len(re.findall(r'\b' + re.escape(keyword.lower()) + r'\b', text))`:
the number of word-boundary occurrences of `keyword` in `text`. -/
def keywordCount (keyword : String) (text : String) : Nat :=
  (findallStr (.seq .wb (.seq (litRE (pyLower keyword)) .wb)) text.data).length

/-- One tier's score: the summed keyword occurrence counts. -/
def tierScore (keywords : List String) (text : String) : Nat :=
  (keywords.map (fun kw => keywordCount kw text)).foldl (· + ·) 0

/-- `ThreatAnalyzer.analyze_threat_level`: scores every tier of
`THREAT_KEYWORDS` on the lower-cased `f"{title} {content}"`, then branches on
critical / high / medium in order; the low tier's score is computed into the
`scores` dict but never read by the branch. -/
def analyze_threat_level (title content : String) : ThreatLevel × ℚ :=
  let text := pyLower (title ++ " " ++ content)
  let criticalScore := tierScore criticalKeywords text
  let highScore := tierScore highKeywords text
  let mediumScore := tierScore mediumKeywords text
  let _lowScore := tierScore lowKeywords text
  if criticalScore > 0 then (.critical, min ((criticalScore : ℚ) / 3) 1)
  else if highScore > 0 then (.high, min ((highScore : ℚ) / 2) 1)
  else if mediumScore > 0 then (.medium, min ((mediumScore : ℚ) / 1.5) 1)
  else (.low, 0.3)

/-- The classifier as the specification describes it: walk the tiers in the
fixed order critical → high → medium with their normalizers 3, 2, 1.5; the
first tier whose word-boundary keyword count is positive gives the level and
`min(count / normalizer, 1.0)`; otherwise `low` with confidence `0.3`. -/
def classifierSpec (title content : String) : ThreatLevel × ℚ :=
  let text := pyLower (title ++ " " ++ content)
  let tiers : List (ThreatLevel × List String × ℚ) :=
    [(.critical, criticalKeywords, 3), (.high, highKeywords, 2),
     (.medium, mediumKeywords, 1.5)]
  match tiers.find? (fun t => 0 < tierScore t.2.1 text) with
  | some t => (t.1, min ((tierScore t.2.1 text : ℚ) / t.2.2) 1)
  | none => (.low, 0.3)

/-! ## `ThreatAnalyzer.ioc_patterns` (app.py 230–237), one `RE` per pattern -/

def digitC : RE := .cls Char.isDigit
def dotC : RE := .cls (fun c => c == '.')
def alnumC : RE := .cls Char.isAlphanum
def alphaC : RE := .cls Char.isAlpha
def hexC : RE := .cls (fun c => c.isDigit || ('a' ≤ c.toLower && c.toLower ≤ 'f'))

/-- `r'\b(?:[0-9]{1,3}\.){3}[0-9]{1,3}\b'` (no capture groups). -/
def ipRE : RE :=
  .seq .wb (.seq (repRange 3 3 (.seq (repRange 1 3 digitC) dotC))
    (.seq (repRange 1 3 digitC) .wb))

/-- `([a-zA-Z0-9\-]{0,61}[a-zA-Z0-9])`, the body of groups 1 and 3 of the
domain pattern. -/
def labelTailRE : RE :=
  .seq (repRange 0 61 (.cls (fun c => c.isAlphanum || c == '-'))) alnumC

/-- The domain pattern
`r'\b[a-zA-Z0-9]([a-zA-Z0-9\-]{0,61}[a-zA-Z0-9])?(\.[a-zA-Z0-9]([a-zA-Z0-9\-]{0,61}[a-zA-Z0-9])?)*\.[a-zA-Z]{2,}\b'`.
It contains three capture groups, so `re.findall` returns 3-tuples of group
texts for it, not matched substrings. -/
def domainRE : RE :=
  .seq .wb (.seq alnumC (.seq (.opt (.group 1 labelTailRE))
    (.seq (.star (.group 2 (.seq dotC (.seq alnumC (.opt (.group 3 labelTailRE))))))
      (.seq dotC (.seq alphaC (.seq alphaC (.seq (.star alphaC) .wb)))))))

/-- `r'\b[a-fA-F0-9]{32}\b'`. -/
def md5RE : RE := .seq .wb (.seq (repRange 32 32 hexC) .wb)

/-- `r'\b[a-fA-F0-9]{64}\b'`. -/
def sha256RE : RE := .seq .wb (.seq (repRange 64 64 hexC) .wb)

/-- `r'CVE-\d{4}-\d{4,}'` under `re.IGNORECASE`. -/
def cveRE : RE :=
  .seq (litCIRE "CVE") (.seq (.cls (fun c => c == '-'))
    (.seq (repRange 4 4 digitC) (.seq (.cls (fun c => c == '-'))
      (.seq (repRange 4 4 digitC) (.star digitC)))))

def emailLocalC : RE :=
  .cls (fun c => c.isAlphanum || c == '.' || c == '_' || c == '%' || c == '+' || c == '-')
def emailDomC : RE := .cls (fun c => c.isAlphanum || c == '.' || c == '-')
/-- `[A-Z|a-z]` — the class really contains the bar character. -/
def emailTldC : RE := .cls (fun c => c.isAlpha || c == '|')

/-- `r'\b[A-Za-z0-9._%+-]+@[A-Za-z0-9.-]+\.[A-Z|a-z]{2,}\b'`. -/
def emailRE : RE :=
  .seq .wb (.seq emailLocalC (.seq (.star emailLocalC)
    (.seq (.cls (fun c => c == '@')) (.seq emailDomC (.seq (.star emailDomC)
      (.seq dotC (.seq emailTldC (.seq emailTldC (.seq (.star emailTldC) .wb)))))))))

/-! ## `ThreatAnalyzer.extract_iocs` and `_validate_ioc` (app.py 275–292) -/

/-- `int(part)` for a string of ASCII digits. -/
def pyDigitsToNat (cs : List Char) : Nat :=
  cs.foldl (fun n c => n * 10 + (c.toNat - 48)) 0

/-- Python `value.split(sep)` for a one-character separator:
`''.split('.') = ['']`, `'a..b'.split('.') = ['a', '', 'b']`. -/
def pySplit (sep : Char) : List Char → List (List Char)
  | [] => [[]]
  | c :: cs =>
    if c == sep then [] :: pySplit sep cs
    else
      match pySplit sep cs with
      | [] => [[c]]
      | g :: gs => (c :: g) :: gs

/-- `_validate_ioc('ip', value)`:
`all(0 <= int(part) <= 255 for part in value.split('.') if part.isdigit())`
(`''.isdigit()` is false, so empty parts are skipped). -/
def validate_ioc_ip (value : String) : Bool :=
  (pySplit '.' value.data).all (fun part =>
    if part.length > 0 && part.all Char.isDigit then
      decide (0 ≤ pyDigitsToNat part) && decide (pyDigitsToNat part ≤ 255)
    else true)

/-- `_validate_ioc('domain', value)` — but the `value` the caller passes is
what `re.findall` produced for the three-group domain pattern: a 3-tuple of
group strings. Python's `len(value)` is then the tuple arity 3 and
`'.' in value` tests membership of `"."` among the three components, so the
conjunction `len(value) > 4 and '.' in value` is false for every candidate. -/
def validate_ioc_domain (value : String × String × String) : Bool :=
  decide ((3 : Nat) > 4) && (value.1 == "." || value.2.1 == "." || value.2.2 == ".")

/-- Python `str` of a 3-tuple of strings, as the f-string
`f"domain:{match}"` would render it (never reached: the domain validator
rejects every tuple). -/
def pyStrTuple3 (t : String × String × String) : String :=
  "('" ++ t.1 ++ "', '" ++ t.2.1 ++ "', '" ++ t.2.2 ++ "')"

/-- The `'ip'` iteration of the `extract_iocs` loop. -/
def ioc_ip (text : String) : List String :=
  ((findallStr ipRE text.data).filter validate_ioc_ip).map (fun m => "ip:" ++ m)

/-- The `'domain'` iteration of the `extract_iocs` loop: candidates are the
group tuples `re.findall` returns for this pattern. -/
def ioc_domain (text : String) : List String :=
  ((findallTuples3 domainRE text.data).filter validate_ioc_domain).map
    (fun t => "domain:" ++ pyStrTuple3 t)

/-- The `'hash_md5'` iteration (`_validate_ioc` returns `True` for this type). -/
def ioc_md5 (text : String) : List String :=
  (findallStr md5RE text.data).map (fun m => "hash_md5:" ++ m)

/-- The `'hash_sha256'` iteration. -/
def ioc_sha256 (text : String) : List String :=
  (findallStr sha256RE text.data).map (fun m => "hash_sha256:" ++ m)

/-- The `'cve'` iteration. -/
def ioc_cve (text : String) : List String :=
  (findallStr cveRE text.data).map (fun m => "cve:" ++ m)

/-- The `'email'` iteration. -/
def ioc_email (text : String) : List String :=
  (findallStr emailRE text.data).map (fun m => "email:" ++ m)

/-- `ThreatAnalyzer.extract_iocs`: run every detector over the text in the
dict's insertion order and deduplicate with `list(set(iocs))`. Python's set
iteration order is unspecified; the resulting set of entries is modelled with
`List.dedup`. -/
def extract_iocs (text : String) : List String :=
  (ioc_ip text ++ ioc_domain text ++ ioc_md5 text ++ ioc_sha256 text ++
    ioc_cve text ++ ioc_email text).dedup

/-! ## `ThreatAnalyzer.extract_tags` and `tag_patterns` (app.py 240–303) -/

/-- `\b(w1|w2|…)\b`, the shape of every entry of `tag_patterns`. -/
def wordAltRE (ws : List String) : RE :=
  .seq .wb (.seq (.group 1 (altList (ws.map litRE))) .wb)

/-- `ThreatAnalyzer.tag_patterns` (app.py 240–251). -/
def tag_patterns : List (String × RE) :=
  [("malware", wordAltRE ["malware", "virus", "trojan", "spyware", "rootkit", "worm"]),
   ("ransomware", wordAltRE ["ransomware", "crypto", "encryption"]),
   ("phishing", wordAltRE ["phishing", "social engineering", "scam"]),
   ("vulnerability", wordAltRE ["vulnerability", "cve", "exploit", "zero-day"]),
   ("data-breach", wordAltRE ["data breach", "leak", "stolen data"]),
   ("apt", wordAltRE ["apt", "advanced persistent threat"]),
   ("mobile", wordAltRE ["android", "ios", "mobile", "smartphone"]),
   ("cloud", wordAltRE ["cloud", "aws", "azure", "google cloud"]),
   ("iot", wordAltRE ["iot", "internet of things"]),
   ("cryptocurrency", wordAltRE ["bitcoin", "cryptocurrency", "crypto", "blockchain"])]

/-- The fixed tag vocabulary, in pattern order. -/
def tagVocabulary : List String := tag_patterns.map (fun p => p.1)

/-- `ThreatAnalyzer.extract_tags`: a tag is appended when its pattern matches
somewhere in the lower-cased `f"{title} {content}"`. -/
def extract_tags (title content : String) : List String :=
  let text := pyLower (title ++ " " ++ content)
  tag_patterns.filterMap (fun p => if research p.2 text.data then some p.1 else none)

/-! ## Database rows and `DatabaseManager.save_articles` (app.py 540–582) -/

/-- A `ThreatArticle` row.  Columns never touched by the verified claims
(`id`, `image_url`, `author`, `scraped_date`, `views`, `bookmarked`) are
omitted.  `tags` and `iocs` hold the JSON text `save_articles` stores. -/
structure Article where
  title : String
  summary : String
  content : String
  url : String
  source_name : String
  published_date : Int
  threat_level : String
  confidence_score : ℚ
  tags : String
  iocs : String
deriving DecidableEq, Repr

/-- One scraped article dict, as built by `scrape_rss_feed`. -/
structure ArticleData where
  title : String
  summary : String
  content : String
  url : String
  source_name : String
  published_date : Int
  threat_level : String
  confidence_score : ℚ
  tags : List String
  iocs : List String
deriving DecidableEq, Repr

/-- `json.dumps` of a list of strings (no escaping; the values stored by the
claims contain no JSON metacharacters).  `json.dumps([])` is `"[]"`. -/
def jsonDumps (l : List String) : String :=
  match l with
  | [] => "[]"
  | x :: xs => "[\"" ++ x ++ (xs.foldl (fun acc y => acc ++ "\", \"" ++ y) "") ++ "\"]"

/-- The row `save_articles` constructs from one scraped dict. -/
def mkArticle (r : ArticleData) : Article :=
  ⟨r.title, r.summary, r.content, r.url, r.source_name, r.published_date,
   r.threat_level, r.confidence_score, jsonDumps r.tags, jsonDumps r.iocs⟩

/-- The existence query
`session.query(ThreatArticle).filter(ThreatArticle.url == url).first()`,
against the committed store (the session has `autoflush=False`, so pending
rows of the current batch are not visible to it). -/
def article_exists (store : List Article) (url : String) : Bool :=
  store.any (fun a => a.url == url)

/-- The `for article_data in articles_data` loop of `save_articles`: rows
whose `url` is already committed are skipped silently, the rest become
pending `session.add`s; the accumulated `saved_count` is returned with them. -/
def pendingOf (store : List Article) : List ArticleData → List Article × Nat
  | [] => ([], 0)
  | r :: rest =>
    if article_exists store r.url then pendingOf store rest
    else
      let p := pendingOf store rest
      (mkArticle r :: p.1, p.2 + 1)

/-- `session.commit()`: insert the pending rows in order.  An insert fails
when the storage engine errors on the row (`fail`, the injected
persistence-layer fault) or the `url` unique index is violated; any failure
aborts the whole commit. -/
def commitPending (fail : Article → Bool) :
    List Article → List Article → Option (List Article)
  | store, [] => some store
  | store, a :: rest =>
    if fail a || article_exists store a.url then none
    else commitPending fail (store ++ [a]) rest

/-- `DatabaseManager.save_articles`: skip rows with committed urls, then
commit the batch.  On any exception the code runs `session.rollback()` —
restoring the pre-batch store — and re-raises; on success it returns
`saved_count`. -/
def save_articles (fail : Article → Bool) (store : List Article)
    (batch : List ArticleData) : List Article × Except String Nat :=
  match commitPending fail store (pendingOf store batch).1 with
  | some store' => (store', .ok (pendingOf store batch).2)
  | none => (store, .error "Error saving articles")

/-! ## `DatabaseManager.search_articles` (app.py 584–670) -/

/-- The filters model (`SearchFilters` pydantic model, app.py 183–189). -/
structure SearchFilters where
  keywords : Option (List String)
  threat_levels : Option (List String)
  sources : Option (List String)
  date_from : Option Int
  date_to : Option Int
  has_iocs : Option Bool
deriving DecidableEq, Repr

/-- A `SearchFilters()` with no field set. -/
def noFilters : SearchFilters := ⟨none, none, none, none, none, none⟩

/-- Does some suffix of the text satisfy `k`?  (The continuation of a `%`.) -/
def likeAnySuffix (k : List Char → Bool) : List Char → Bool
  | [] => k []
  | c :: ts => k (c :: ts) || likeAnySuffix k ts

/-- SQL `LIKE` pattern matching over characters: `%` matches any sequence,
`_` any single character, anything else itself. -/
def likeMatch : List Char → List Char → Bool
  | [], ts => ts.isEmpty
  | p :: ps, ts =>
    if p == '%' then
      likeAnySuffix (likeMatch ps) ts
    else if p == '_' then
      match ts with
      | [] => false
      | _ :: ts' => likeMatch ps ts'
    else
      match ts with
      | [] => false
      | t :: ts' => p == t && likeMatch ps ts'

/-- SQLAlchemy `column.ilike(pattern)`: case-insensitive `LIKE`. -/
def ilike (column pattern : String) : Bool :=
  likeMatch (pyLower pattern).data (pyLower column).data

/-- One keyword's condition:
`title ILIKE '%kw%' OR summary ILIKE '%kw%' OR content ILIKE '%kw%'`. -/
def keywordCond (kws : List String) (a : Article) : Bool :=
  kws.any (fun kw =>
    ilike a.title ("%" ++ kw ++ "%") || ilike a.summary ("%" ++ kw ++ "%") ||
      ilike a.content ("%" ++ kw ++ "%"))

/-- The conjunction of filter conditions `search_articles` builds.  Each list
field is guarded by `if filters.xs:` — Python's empty list is falsy, so a
supplied-but-empty list imposes no condition, exactly like `None`. -/
def matchesFilters (f : SearchFilters) (a : Article) : Bool :=
  (match f.keywords with
   | some (kw :: kws) => keywordCond (kw :: kws) a
   | _ => true) &&
  (match f.threat_levels with
   | some (l :: ls) => (l :: ls).contains a.threat_level
   | _ => true) &&
  (match f.sources with
   | some (s :: ss) => (s :: ss).contains a.source_name
   | _ => true) &&
  (match f.date_from with
   | some d => decide (d ≤ a.published_date)
   | none => true) &&
  (match f.date_to with
   | some d => decide (a.published_date ≤ d)
   | none => true) &&
  (match f.has_iocs with
   | some true => a.iocs != "[]"
   | some false => a.iocs == "[]"
   | none => true)

/-- The filtered (pre-pagination) result set of the query. -/
def matchedArticles (store : List Article) (f : SearchFilters) : List Article :=
  store.filter (matchesFilters f)

/-- `ORDER BY published_date DESC` (ties left in an unspecified stable order,
modelled by a stable sort). -/
def sortByPublishedDesc (l : List Article) : List Article :=
  l.insertionSort (fun a b => b.published_date ≤ a.published_date)

/-- The paginated query response (items kept as rows; the pydantic conversion
copies fields one-to-one). -/
structure PaginatedResponse where
  items : List Article
  total : Nat
  page : Nat
  per_page : Nat
  pages : Nat
  has_next : Bool
  has_prev : Bool
deriving DecidableEq, Repr

/-- `DatabaseManager.search_articles`: filter, count, sort, then slice
`offset (page-1)*per_page` / `limit per_page`;
`pages = (total + per_page - 1) // per_page`;
`has_next = page < pages`; `has_prev = page > 1`. -/
def search_articles (store : List Article) (f : SearchFilters)
    (page per_page : Nat) : PaginatedResponse :=
  let matched := matchedArticles store f
  let total := matched.length
  let sorted := sortByPublishedDesc matched
  let offset := (page - 1) * per_page
  let items := (sorted.drop offset).take per_page
  let pages := (total + per_page - 1) / per_page
  ⟨items, total, page, per_page, pages, decide (page < pages), decide (page > 1)⟩

/-- `kw` occurs as a case-insensitive substring of `hay`. -/
def substrCI (needle hay : String) : Bool :=
  decide ((pyLower needle).data <:+: (pyLower hay).data)

/-- The query predicate exactly as claim C6 words it: every supplied category
must hold (AND); a supplied keyword list is satisfied when at least one
keyword is a case-insensitive substring of title, summary or content (OR);
`threat_levels` / `sources` are membership tests in the supplied list as
given. -/
def matchesFiltersClaim (f : SearchFilters) (a : Article) : Bool :=
  (match f.keywords with
   | some kws =>
     kws.any (fun kw =>
       substrCI kw a.title || substrCI kw a.summary || substrCI kw a.content)
   | none => true) &&
  (match f.threat_levels with
   | some ls => ls.contains a.threat_level
   | none => true) &&
  (match f.sources with
   | some ss => ss.contains a.source_name
   | none => true) &&
  (match f.date_from with
   | some d => decide (d ≤ a.published_date)
   | none => true) &&
  (match f.date_to with
   | some d => decide (a.published_date ≤ d)
   | none => true) &&
  (match f.has_iocs with
   | some true => a.iocs != "[]"
   | some false => a.iocs == "[]"
   | none => true)

/-- The claim's predicate amended to the code's behaviour: a
supplied-but-empty list imposes no constraint (Python truthiness), keyword
matching is case-insensitive substring — which coincides with the code's
`ILIKE '%kw%'` exactly when the keyword contains no `LIKE` wildcard. -/
def matchesFiltersAmended (f : SearchFilters) (a : Article) : Bool :=
  (match f.keywords with
   | some (kw :: kws) =>
     (kw :: kws).any (fun k =>
       substrCI k a.title || substrCI k a.summary || substrCI k a.content)
   | _ => true) &&
  (match f.threat_levels with
   | some (l :: ls) => (l :: ls).contains a.threat_level
   | _ => true) &&
  (match f.sources with
   | some (s :: ss) => (s :: ss).contains a.source_name
   | _ => true) &&
  (match f.date_from with
   | some d => decide (d ≤ a.published_date)
   | none => true) &&
  (match f.date_to with
   | some d => decide (a.published_date ≤ d)
   | none => true) &&
  (match f.has_iocs with
   | some true => a.iocs != "[]"
   | some false => a.iocs == "[]"
   | none => true)

/-- A keyword that contains no `LIKE` wildcard character.  (Stated on the
lower-cased keyword, which has the same wildcards: `str.lower` maps `%` and
`_` to themselves and maps no character onto them.) -/
def likeWildcardFree (kw : String) : Bool :=
  (pyLower kw).data.all (fun c => !(c == '%') && !(c == '_'))

/-! ## `ScraperManager.scrape_rss_feed` (app.py 358–438) -/

/-- Python `str.strip()`: drop the six ASCII whitespace characters from both
ends. -/
def pyStrip (s : String) : String :=
  let ws : Char → Bool := fun c =>
    c == ' ' || c == '\t' || c == '\n' || c == '\r' || c == '\x0b' || c == '\x0c'
  ⟨((s.data.dropWhile ws).reverse.dropWhile ws).reverse⟩

/-- One parsed feed entry. `published_parsed` is `some t` when the entry
carries a timestamp that `datetime(*entry.published_parsed[:6])` accepts. -/
structure FeedEntry where
  title : String
  summary : String
  link : String
  published_parsed : Option Int
deriving DecidableEq, Repr

/-- The body of the entry loop after the drop test: strip the fields, clean
the summary's markup (`BeautifulSoup(...).get_text(strip=True)`, abstracted
as `cleanHtml`), analyse, and build the article dict. -/
def entryToArticle (cleanHtml : String → String) (now : Int)
    (source_name : String) (e : FeedEntry) : ArticleData :=
  let title := (pyStrip e.title)
  let summary0 := (pyStrip e.summary)
  let url := (pyStrip e.link)
  let published_date :=
    match e.published_parsed with
    | some d => d
    | none => now
  let summary := if summary0 == "" then summary0 else cleanHtml summary0
  let content := summary
  let tc := analyze_threat_level title content
  ⟨title, summary, content, url, source_name, published_date, tc.1.toStr, tc.2,
   extract_tags title content, extract_iocs (title ++ " " ++ content)⟩

/-- `ScraperManager.scrape_rss_feed` on a successfully fetched feed: iterate
over `feed.entries[:MAX_ARTICLES_PER_SOURCE]`; an entry whose stripped title
is empty or whose stripped link is empty is skipped (`if not title or not
url: continue`); the rest are processed. -/
def scrape_rss_feed (cleanHtml : String → String) (now : Int)
    (source_name : String) (entries : List FeedEntry) : List ArticleData :=
  (entries.take MAX_ARTICLES_PER_SOURCE).filterMap (fun e =>
    if (pyStrip e.title) == "" || (pyStrip e.link) == "" then none
    else some (entryToArticle cleanHtml now source_name e))

/-- The keep test of the entry loop, as a standalone predicate: the negation
of the drop condition `not title or not url`. -/
def entryKept (e : FeedEntry) : Bool :=
  !((pyStrip e.title) == "" || (pyStrip e.link) == "")

/-! ## Concrete data used by witnesses and counterexamples -/

/-- A store of 45 articles with distinct publication dates. -/
def store45 : List Article :=
  (List.range 45).map (fun i => ⟨"t", "", "", "u", "s", (i : Int), "low", 0, "[]", "[]"⟩)

/-- An article whose texts contain no `%` and whose level is `medium`. -/
def artHello : Article :=
  ⟨"hello", "", "", "http://e/1", "src", 0, "medium", 0, "[]", "[]"⟩

/-- An article with threat level `high`. -/
def artHigh : Article := ⟨"t", "", "", "u", "s", 0, "high", 0, "[]", "[]"⟩

/-- A feed entry with a title but no link. -/
def entryNoLink : FeedEntry := ⟨"Foo", "desc", "", none⟩

/-! ## Helper lemmas -/

/-- Unfolding `article_exists` to a membership statement. -/
theorem article_exists_iff (s : List Article) (u : String) :
    article_exists s u = true ↔ ∃ a ∈ s, a.url = u := by
  simp [article_exists, List.any_eq_true]

/-- `article_exists` over an appended store. -/
theorem article_exists_append (s t : List Article) (u : String) :
    article_exists (s ++ t) u = (article_exists s u || article_exists t u) := by
  simp [article_exists]

/-- A successful commit appends exactly the pending rows. -/
theorem commitPending_ok (fail : Article → Bool) :
    ∀ (p store store' : List Article), commitPending fail store p = some store' →
      store' = store ++ p := by
  intro p
  induction p with
  | nil =>
    intro store store' h
    simp [commitPending] at h
    simp [h]
  | cons a rest ih =>
    intro store store' h
    by_cases hf : fail a || article_exists store a.url
    · simp [commitPending, hf] at h
    · simp only [commitPending, hf, if_false, Bool.false_eq_true] at h
      have := ih (store ++ [a]) store' h
      simp [this]

/-- Every record of the batch has its url present in the post-loop store. -/
theorem pendingOf_covers (store : List Article) (batch : List ArticleData)
    (r : ArticleData) (hr : r ∈ batch) :
    article_exists (store ++ (pendingOf store batch).1) r.url = true := by
  induction batch with
  | nil => cases hr
  | cons x xs ih =>
    rcases List.mem_cons.mp hr with h | h
    · subst h
      by_cases hx : article_exists store r.url
      · simp [pendingOf, hx, article_exists_append]
      · simp only [pendingOf, hx, Bool.false_eq_true, if_false]
        rw [article_exists_append]
        have : article_exists (mkArticle r :: (pendingOf store xs).1) r.url = true := by
          rw [article_exists_iff]
          exact ⟨mkArticle r, by simp, rfl⟩
        simp [this]
    · have hx2 := ih h
      by_cases hx : article_exists store x.url
      · simpa [pendingOf, hx] using hx2
      · simp only [pendingOf, hx, Bool.false_eq_true, if_false]
        rw [article_exists_append] at hx2 ⊢
        rcases Bool.or_eq_true_iff.mp hx2 with h2 | h2
        · simp [h2]
        · rw [article_exists_iff] at h2
          obtain ⟨a, ha, hau⟩ := h2
          have : article_exists (mkArticle x :: (pendingOf store xs).1) r.url = true := by
            rw [article_exists_iff]
            exact ⟨a, by simp [ha], hau⟩
          simp [this]

/-- When every record's url is already present, the loop adds nothing. -/
theorem pendingOf_nil (store : List Article) (batch : List ArticleData)
    (h : ∀ r ∈ batch, article_exists store r.url = true) :
    pendingOf store batch = ([], 0) := by
  induction batch with
  | nil => rfl
  | cons x xs ih =>
    simp only [pendingOf, h x (by simp)]
    exact ih (fun r hr => h r (by simp [hr]))

/-- The save loop keeps exactly the records with fresh urls and counts
exactly those: records whose url is already stored are neither added nor
counted. -/
theorem pendingOf_eq_filter (store : List Article) (batch : List ArticleData) :
    pendingOf store batch =
      ((batch.filter (fun r => !(article_exists store r.url))).map mkArticle,
        (batch.filter (fun r => !(article_exists store r.url))).length) := by
  induction batch with
  | nil => rfl
  | cons x xs ih =>
    by_cases hx : article_exists store x.url
    · simp [pendingOf, hx, ih]
    · simp [pendingOf, hx, ih]

/-- `filterMap` of an if-drop loop is a filter followed by a map. -/
theorem filterMap_not_drop {α β : Type} (c : α → Bool) (g : α → β) (l : List α) :
    (l.filterMap fun e => if c e then none else some (g e)) =
      (l.filter fun e => !(c e)).map g := by
  induction l with
  | nil => rfl
  | cons x xs ih => by_cases hx : c x <;> simp [hx, ih]

/-- `filterMap` of an if-keep loop is a filter followed by a map of `Prod.fst`
(the shape of `extract_tags`). -/
theorem filterMap_if_keep (l : List (String × RE)) (q : String × RE → Bool) :
    (l.filterMap fun p => if q p then some p.1 else none) =
      (l.filter q).map (fun p => p.1) := by
  induction l with
  | nil => rfl
  | cons x xs ih => by_cases hx : q x <;> simp [hx, ih]

/-! ## The claims -/

/-- C1: for every (title, content), `analyze_threat_level` evaluates the
tiers in the fixed order critical, high, medium; the first tier whose
word-boundary keyword-occurrence count over the lower-cased concatenation is
positive gives the level, with confidence `min(count/3, 1)` for critical,
`min(count/2, 1)` for high, `min(count/1.5, 1)` for medium; with no match the
result is `(low, 0.3)`.  In particular a positive critical-tier count always
yields `critical`, whatever the other tiers count. -/
theorem claim1_classifier_first_tier (title content : String) :
    analyze_threat_level title content = classifierSpec title content ∧
    (0 < tierScore criticalKeywords (pyLower (title ++ " " ++ content)) →
      (analyze_threat_level title content).1 = .critical) := by
  constructor
  · by_cases hc : 0 < tierScore criticalKeywords (pyLower (title ++ " " ++ content))
    · simp [analyze_threat_level, classifierSpec, List.find?, hc]
    · by_cases hh : 0 < tierScore highKeywords (pyLower (title ++ " " ++ content))
      · simp [analyze_threat_level, classifierSpec, List.find?, hc, hh]
      · by_cases hm : 0 < tierScore mediumKeywords (pyLower (title ++ " " ++ content))
        · simp [analyze_threat_level, classifierSpec, List.find?, hc, hh, hm]
        · simp [analyze_threat_level, classifierSpec, List.find?, hc, hh, hm]
  · intro hc
    simp [analyze_threat_level, hc]

/-- C1 witness: a text holding the critical keyword "ransomware" classifies
as critical and agrees with the specified tier walk. -/
theorem claim1_witness :
    (analyze_threat_level "ransomware" "alert").1 = .critical ∧
    analyze_threat_level "ransomware" "alert" = classifierSpec "ransomware" "alert" := by
  refine ⟨(claim1_classifier_first_tier "ransomware" "alert").2 (by decide),
    (claim1_classifier_first_tier "ransomware" "alert").1⟩

/-- C10: when the critical, high and medium tiers all score zero the result
is exactly `(low, 0.3)`, whatever the low tier's keyword count — the low
keyword list never influences the result. -/
theorem claim10_low_tier_ignored (title content : String)
    (hc : tierScore criticalKeywords (pyLower (title ++ " " ++ content)) = 0)
    (hh : tierScore highKeywords (pyLower (title ++ " " ++ content)) = 0)
    (hm : tierScore mediumKeywords (pyLower (title ++ " " ++ content)) = 0) :
    analyze_threat_level title content = (.low, 0.3) := by
  simp [analyze_threat_level, hc, hh, hm]

/-- C10 witness: a text made of three low-tier keywords (its low-tier score
is positive) classifies as `(low, 0.3)`. -/
theorem claim10_witness :
    analyze_threat_level "advisory" "security news report" = (.low, 0.3) ∧
    0 < tierScore lowKeywords (pyLower ("advisory" ++ " " ++ "security news report")) := by
  exact ⟨claim10_low_tier_ignored "advisory" "security news report"
    (by decide) (by decide) (by decide), by decide⟩

/-- The domain validator rejects every group tuple, so the `'domain'`
iteration contributes nothing on any input. -/
theorem ioc_domain_nil (text : String) : ioc_domain text = [] := by
  have h : ∀ t : String × String × String, validate_ioc_domain t = false := fun _ => rfl
  simp [ioc_domain, h]

/-- C2 (code bug): the `'domain'` iteration of `extract_iocs` never emits
anything for any input — `re.findall` returns group 3-tuples for this
pattern, and `_validate_ioc` then evaluates `len(tuple) > 4`, which is false
— and in particular a text containing the valid domain `evil-domain.com`
produces no `domain:` entry at all. -/
theorem claim2_domain_never_emitted :
    (∀ text, ioc_domain text = []) ∧
    extract_iocs "visit evil-domain.com now" = [] := by
  exact ⟨ioc_domain_nil, by decide⟩

set_option maxHeartbeats 1000000 in
/-- C9: `extract_iocs` returns no duplicate entries, and `extract_tags`
returns no duplicate tags and only tags of the fixed 10-tag vocabulary;
hence a scraped article's `tags` and `iocs` contain no duplicates. -/
theorem claim9_no_duplicates :
    (∀ text, (extract_iocs text).Nodup) ∧
    (∀ title content, (extract_tags title content).Nodup ∧
      extract_tags title content ⊆ tagVocabulary) ∧
    ∀ cleanHtml now source_name e,
      ((entryToArticle cleanHtml now source_name e).tags).Nodup ∧
      ((entryToArticle cleanHtml now source_name e).iocs).Nodup := by
  have hiocs : ∀ text, (extract_iocs text).Nodup := fun text => List.nodup_dedup _
  have htags : ∀ title content, (extract_tags title content).Nodup ∧
      extract_tags title content ⊆ tagVocabulary := by
    intro title content
    have h : extract_tags title content =
        (tag_patterns.filter
            (fun p => research p.2 (pyLower (title ++ " " ++ content)).data)).map
          (fun p => p.1) :=
      filterMap_if_keep _ _
    have hsub : List.Sublist (extract_tags title content) tagVocabulary := by
      rw [h]
      exact (List.filter_sublist _).map _
    exact ⟨hsub.nodup (by decide), hsub.subset⟩
  exact ⟨hiocs, htags, fun cleanHtml now source_name e =>
    ⟨(htags _ _).1, hiocs _⟩⟩

/-- C7 (amended): feed mode takes at most the 20-entry default cap per
source — only the first 20 entries are ever considered — and an entry is
dropped exactly when its stripped title is empty or its stripped link is
empty (in particular one missing both is dropped). -/
theorem claim7_cap_and_drop_rule (cleanHtml : String → String) (now : Int)
    (source_name : String) (entries : List FeedEntry) :
    scrape_rss_feed cleanHtml now source_name entries =
      ((entries.take MAX_ARTICLES_PER_SOURCE).filter entryKept).map
        (entryToArticle cleanHtml now source_name) ∧
    (scrape_rss_feed cleanHtml now source_name entries).length ≤
      MAX_ARTICLES_PER_SOURCE ∧
    scrape_rss_feed cleanHtml now source_name entries =
      scrape_rss_feed cleanHtml now source_name
        (entries.take MAX_ARTICLES_PER_SOURCE) ∧
    MAX_ARTICLES_PER_SOURCE = 20 := by
  have h1 : scrape_rss_feed cleanHtml now source_name entries =
      ((entries.take MAX_ARTICLES_PER_SOURCE).filter entryKept).map
        (entryToArticle cleanHtml now source_name) := filterMap_not_drop _ _ _
  refine ⟨h1, ?_, ?_, rfl⟩
  · rw [h1]
    calc (((entries.take MAX_ARTICLES_PER_SOURCE).filter entryKept).map
            (entryToArticle cleanHtml now source_name)).length
        = ((entries.take MAX_ARTICLES_PER_SOURCE).filter entryKept).length := by
          simp
      _ ≤ (entries.take MAX_ARTICLES_PER_SOURCE).length := List.length_filter_le _ _
      _ ≤ MAX_ARTICLES_PER_SOURCE := List.length_take_le _ _
  · simp [scrape_rss_feed, List.take_take]

/-- C7 counterexample: an entry with a non-empty title but no link is
dropped, although the claim says an entry with a non-empty title or link "is
not dropped by this rule and is still processed". -/
theorem claim7_counterexample :
    pyStrip entryNoLink.title ≠ "" ∧
    scrape_rss_feed (fun s => s) 0 "src" [entryNoLink] = [] := by
  exact ⟨by decide, rfl⟩

/-- C3: writes are idempotent by url — a record whose url is already stored
is silently skipped (the store and its articles' fields are unchanged, no
error, inserted count 0), and re-writing any previously saved batch inserts
0 records and leaves the store unchanged. -/
theorem claim3_write_idempotent :
    (∀ fail store r, article_exists store r.url = true →
        save_articles fail store [r] = (store, .ok 0)) ∧
    (∀ store batch, pendingOf store batch =
      ((batch.filter (fun r => !(article_exists store r.url))).map mkArticle,
        (batch.filter (fun r => !(article_exists store r.url))).length)) ∧
    ∀ fail fail2 store batch store' n,
      save_articles fail store batch = (store', .ok n) →
      save_articles fail2 store' batch = (store', .ok 0) := by
  refine ⟨?_, pendingOf_eq_filter, ?_⟩
  · intro fail store r h
    simp [save_articles, pendingOf, h, commitPending]
  · intro fail fail2 store batch store' n h
    unfold save_articles at h
    cases hc : commitPending fail store (pendingOf store batch).1 with
    | none => rw [hc] at h; simp at h
    | some s2 =>
      rw [hc] at h
      have hs : store' = s2 := by
        have := congrArg Prod.fst h
        simpa using this.symm
      subst hs
      have hs2 : store' = store ++ (pendingOf store batch).1 :=
        commitPending_ok fail _ store store' hc
      have hall : ∀ r ∈ batch, article_exists store' r.url = true := by
        intro r hr
        rw [hs2]
        exact pendingOf_covers store batch r hr
      unfold save_articles
      rw [pendingOf_nil store' batch hall]
      simp [commitPending]

/-- C3 witness: a one-record batch whose url collides with the stored
article is a no-op, and re-running a freshly saved batch inserts nothing. -/
theorem claim3_witness :
    save_articles (fun _ => false) [artHello]
        [⟨"other title", "", "", "http://e/1", "s", 0, "low", 0, [], []⟩] =
      ([artHello], .ok 0) ∧
    save_articles (fun _ => false) [artHello]
        [⟨"other title", "", "", "http://e/2", "s", 0, "low", 0, [], []⟩] =
      ([artHello, mkArticle ⟨"other title", "", "", "http://e/2", "s", 0, "low", 0, [], []⟩],
        .ok 1) ∧
    save_articles (fun _ => false)
        [artHello, mkArticle ⟨"other title", "", "", "http://e/2", "s", 0, "low", 0, [], []⟩]
        [⟨"other title", "", "", "http://e/2", "s", 0, "low", 0, [], []⟩] =
      ([artHello, mkArticle ⟨"other title", "", "", "http://e/2", "s", 0, "low", 0, [], []⟩],
        .ok 0) := by
  refine ⟨claim3_write_idempotent.1 _ _ _ (by decide), by rfl, ?_⟩
  exact claim3_write_idempotent.2.2 (fun _ => false) (fun _ => false) [artHello]
    [⟨"other title", "", "", "http://e/2", "s", 0, "low", 0, [], []⟩] _ 1 (by rfl)

/-- C4: a batch write is all-or-nothing — when the persistence layer fails
the whole batch is rolled back (the store is exactly the pre-batch store)
and the error is surfaced; on success every pending record is committed and
the reported count is the full pending count, so partial success is never
reported. -/
theorem claim4_all_or_nothing (fail : Article → Bool) (store : List Article)
    (batch : List ArticleData) :
    (∀ e, (save_articles fail store batch).2 = .error e →
        (save_articles fail store batch).1 = store) ∧
    ∀ n, (save_articles fail store batch).2 = .ok n →
      (save_articles fail store batch).1 = store ++ (pendingOf store batch).1 ∧
        n = (pendingOf store batch).2 := by
  cases hc : commitPending fail store (pendingOf store batch).1 with
  | none =>
    constructor
    · intro e _
      simp [save_articles, hc]
    · intro n h
      simp [save_articles, hc] at h
  | some s2 =>
    constructor
    · intro e h
      simp [save_articles, hc] at h
    · intro n h
      have h2 : n = (pendingOf store batch).2 := by
        simp [save_articles, hc] at h
        exact h.symm
      refine ⟨?_, h2⟩
      simp only [save_articles, hc]
      exact commitPending_ok fail _ store s2 hc

/-- Integer ceiling division, as the code computes it, equals the rational
ceiling. -/
theorem pages_eq_ceil (t p : Nat) (hp : 1 ≤ p) :
    (t + p - 1) / p = ⌈(t : ℚ) / (p : ℚ)⌉₊ := by
  rcases Nat.eq_zero_or_pos t with ht | ht
  · subst ht
    rw [Nat.div_eq_of_lt (by omega : 0 + p - 1 < p)]
    simp
  · have hp0 : 0 < p := hp
    have h1 : ((t + p - 1) / p) * p ≤ t + p - 1 := Nat.div_mul_le_self _ _
    have h2 : t + p - 1 < ((t + p - 1) / p) * p + p := by
      have h := (Nat.div_lt_iff_lt_mul hp0).mp (Nat.lt_succ_self ((t + p - 1) / p))
      calc t + p - 1 < ((t + p - 1) / p + 1) * p := h
        _ = ((t + p - 1) / p) * p + p := by rw [Nat.succ_mul]
    have hq1 : 1 ≤ (t + p - 1) / p := by
      rw [Nat.one_le_div_iff hp0]
      omega
    have hpq : (0 : ℚ) < (p : ℚ) := by exact_mod_cast hp0
    symm
    rw [Nat.ceil_eq_iff (by omega : (t + p - 1) / p ≠ 0)]
    constructor
    · rw [lt_div_iff₀ hpq]
      have hnat : ((t + p - 1) / p - 1) * p < t := by
        have hs : ((t + p - 1) / p - 1) * p = ((t + p - 1) / p) * p - p := by
          rw [Nat.sub_mul, one_mul]
        omega
      exact_mod_cast hnat
    · rw [div_le_iff₀ hpq]
      exact_mod_cast (by omega : t ≤ ((t + p - 1) / p) * p)

/-- Appending to a fixed string on the left is injective. -/
theorem str_append_left_cancel (p a b : String) (h : p ++ a = p ++ b) : a = b := by
  have h2 : p.data ++ a.data = p.data ++ b.data := congrArg String.data h
  have h3 := List.append_cancel_left h2
  cases a
  cases b
  exact congrArg String.mk h3

/-- An `ip:`-prefixed entry never comes from the `'hash_md5'` iteration. -/
theorem not_ip_in_md5 (text m : String) : ("ip:" ++ m) ∉ ioc_md5 text := by
  intro h
  simp only [ioc_md5, List.mem_map] at h
  obtain ⟨y, _, hy⟩ := h
  have h2 : ('h' :: 'a' :: 's' :: 'h' :: '_' :: 'm' :: 'd' :: '5' :: ':' :: y.data :
      List Char) = 'i' :: 'p' :: ':' :: m.data := congrArg String.data hy
  injection h2 with h3 _
  exact absurd h3 (by decide)

/-- An `ip:`-prefixed entry never comes from the `'hash_sha256'` iteration. -/
theorem not_ip_in_sha256 (text m : String) : ("ip:" ++ m) ∉ ioc_sha256 text := by
  intro h
  simp only [ioc_sha256, List.mem_map] at h
  obtain ⟨y, _, hy⟩ := h
  have h2 : ('h' :: 'a' :: 's' :: 'h' :: '_' :: 's' :: 'h' :: 'a' :: '2' :: '5' :: '6' ::
      ':' :: y.data : List Char) = 'i' :: 'p' :: ':' :: m.data := congrArg String.data hy
  injection h2 with h3 _
  exact absurd h3 (by decide)

/-- An `ip:`-prefixed entry never comes from the `'cve'` iteration. -/
theorem not_ip_in_cve (text m : String) : ("ip:" ++ m) ∉ ioc_cve text := by
  intro h
  simp only [ioc_cve, List.mem_map] at h
  obtain ⟨y, _, hy⟩ := h
  have h2 : ('c' :: 'v' :: 'e' :: ':' :: y.data : List Char)
      = 'i' :: 'p' :: ':' :: m.data := congrArg String.data hy
  injection h2 with h3 _
  exact absurd h3 (by decide)

/-- An `ip:`-prefixed entry never comes from the `'email'` iteration. -/
theorem not_ip_in_email (text m : String) : ("ip:" ++ m) ∉ ioc_email text := by
  intro h
  simp only [ioc_email, List.mem_map] at h
  obtain ⟨y, _, hy⟩ := h
  have h2 : ('e' :: 'm' :: 'a' :: 'i' :: 'l' :: ':' :: y.data : List Char)
      = 'i' :: 'p' :: ':' :: m.data := congrArg String.data hy
  injection h2 with h3 _
  exact absurd h3 (by decide)

/-- An `ip:`-prefixed entry is in the extractor's output exactly when the
`'ip'` iteration produced it. -/
theorem extract_iocs_ip_mem (text m : String) :
    ("ip:" ++ m) ∈ extract_iocs text ↔ ("ip:" ++ m) ∈ ioc_ip text := by
  simp only [extract_iocs, List.mem_dedup, List.mem_append]
  constructor
  · rintro (((((h | h) | h) | h) | h) | h)
    · exact h
    · rw [ioc_domain_nil] at h
      cases h
    · exact absurd h (not_ip_in_md5 text m)
    · exact absurd h (not_ip_in_sha256 text m)
    · exact absurd h (not_ip_in_cve text m)
    · exact absurd h (not_ip_in_email text m)
  · intro h
    exact Or.inl (Or.inl (Or.inl (Or.inl (Or.inl h))))

/-- C8: a dotted-quad substring matched by the ip detector is emitted as
`ip:` entry exactly when the octet validator accepts it; `8.8.8.8` is
extracted from a text containing it, while `999.999.999.999` is matched by
the pattern but rejected by the validator, so the extractor emits nothing
for it. -/
theorem claim8_ip_octets :
    (∀ text m, m ∈ findallStr ipRE text.data →
      (("ip:" ++ m) ∈ extract_iocs text ↔ validate_ioc_ip m = true)) ∧
    "ip:8.8.8.8" ∈ extract_iocs "ip 8.8.8.8 ok" ∧
    validate_ioc_ip "8.8.8.8" = true ∧
    extract_iocs "bad 999.999.999.999 here" = [] ∧
    validate_ioc_ip "999.999.999.999" = false ∧
    "999.999.999.999" ∈ findallStr ipRE "bad 999.999.999.999 here".data := by
  refine ⟨?_, by decide, by decide, by decide, by decide, by decide⟩
  intro text m hm
  rw [extract_iocs_ip_mem]
  simp only [ioc_ip, List.mem_map, List.mem_filter]
  constructor
  · rintro ⟨m', ⟨_, hv⟩, he⟩
    have hmm : m' = m := str_append_left_cancel "ip:" m' m he
    subst hmm
    exact hv
  · intro hv
    exact ⟨m, ⟨hm, hv⟩, rfl⟩

/-- C8 witness: the membership law applied to `8.8.8.8` in a concrete text. -/
theorem claim8_witness :
    ("ip:" ++ "8.8.8.8") ∈ extract_iocs "ip 8.8.8.8 ok" ↔
      validate_ioc_ip "8.8.8.8" = true :=
  claim8_ip_octets.1 "ip 8.8.8.8 ok" "8.8.8.8" (by decide)

/-- C5: pagination is 1-based; the items are the `(page-1)*perPage` slice of
at most `perPage` items; `pages = ceil(total/perPage)`;
`hasNext ↔ page < pages`; `hasPrev ↔ page > 1`.  For `total = 45`,
`perPage = 20`: `pages = 3` and page 3 holds 5 items with
`hasNext = false`, `hasPrev = true`. -/
theorem claim5_pagination :
    (∀ store f page per, 1 ≤ per →
      (search_articles store f page per).page = page ∧
      (search_articles store f page per).per_page = per ∧
      (search_articles store f page per).items =
        ((sortByPublishedDesc (matchedArticles store f)).drop ((page - 1) * per)).take
          per ∧
      (search_articles store f page per).items.length ≤ per ∧
      (search_articles store f page per).pages =
        ⌈((search_articles store f page per).total : ℚ) / (per : ℚ)⌉₊ ∧
      ((search_articles store f page per).has_next = true ↔
        page < (search_articles store f page per).pages) ∧
      ((search_articles store f page per).has_prev = true ↔ 1 < page)) ∧
    (search_articles store45 noFilters 3 20).total = 45 ∧
    (search_articles store45 noFilters 3 20).pages = 3 ∧
    (search_articles store45 noFilters 3 20).items.length = 5 ∧
    (search_articles store45 noFilters 3 20).has_next = false ∧
    (search_articles store45 noFilters 3 20).has_prev = true := by
  refine ⟨?_, by decide, by decide, by decide, by decide, by decide⟩
  intro store f page per hper
  refine ⟨rfl, rfl, rfl, List.length_take_le _ _, ?_, by simp [search_articles], ?_⟩
  · exact pages_eq_ceil (matchedArticles store f).length per hper
  · simp [search_articles]

/-- C5 witness: the general pagination law applied at page 3 of a 45-article
store with 20 per page. -/
theorem claim5_witness :
    (search_articles store45 noFilters 3 20).has_next = true ↔
      3 < (search_articles store45 noFilters 3 20).pages :=
  (claim5_pagination.1 store45 noFilters 3 20 (by decide)).2.2.2.2.2.1

/-- C4 witness: a batch whose second row hits an injected storage fault is
rolled back entirely: the store is unchanged and an error is returned. -/
theorem claim4_witness :
    (save_articles (fun a => a.url == "http://e/2") []
        [⟨"t1", "", "", "http://e/1", "s", 0, "low", 0, [], []⟩,
         ⟨"t2", "", "", "http://e/2", "s", 0, "low", 0, [], []⟩]).1 = [] := by
  exact (claim4_all_or_nothing (fun a => a.url == "http://e/2") []
    [⟨"t1", "", "", "http://e/1", "s", 0, "low", 0, [], []⟩,
     ⟨"t2", "", "", "http://e/2", "s", 0, "low", 0, [], []⟩]).1
    "Error saving articles" (by rfl)

/-- `likeAnySuffix k` holds exactly when some suffix satisfies `k`. -/
theorem likeAnySuffix_iff (k : List Char → Bool) (ts : List Char) :
    likeAnySuffix k ts = true ↔ ∃ ts', ts' <:+ ts ∧ k ts' = true := by
  induction ts with
  | nil =>
    simp [likeAnySuffix]
  | cons c ts ih =>
    simp only [likeAnySuffix, Bool.or_eq_true, ih]
    constructor
    · rintro (h | ⟨ts', hs, hk⟩)
      · exact ⟨c :: ts, List.suffix_refl _, h⟩
      · exact ⟨ts', hs.trans (List.suffix_cons c ts), hk⟩
    · rintro ⟨ts', hs, hk⟩
      rcases List.suffix_cons_iff.mp hs with h | h
      · subst h
        exact Or.inl hk
      · exact Or.inr ⟨ts', h, hk⟩

/-- A wildcard-free literal block at the head of a `LIKE` pattern consumes
exactly itself. -/
theorem likeMatch_lit (lits : List Char)
    (hw : ∀ c ∈ lits, (!(c == '%') && !(c == '_')) = true) (ps : List Char) :
    ∀ ts, likeMatch (lits ++ ps) ts = true ↔
      ∃ ts', ts = lits ++ ts' ∧ likeMatch ps ts' = true := by
  induction lits with
  | nil =>
    intro ts
    simp
  | cons c lits ih =>
    intro ts
    have hc := hw c (by simp)
    have hc1 : (c == '%') = false := by
      rcases Bool.and_eq_true_iff.mp hc with ⟨h1, _⟩
      simpa using h1
    have hc2 : (c == '_') = false := by
      rcases Bool.and_eq_true_iff.mp hc with ⟨_, h2⟩
      simpa using h2
    have ihw : ∀ c ∈ lits, (!(c == '%') && !(c == '_')) = true :=
      fun d hd => hw d (by simp [hd])
    cases ts with
    | nil =>
      simp [likeMatch, hc1, hc2]
    | cons t ts =>
      simp only [List.cons_append, likeMatch, hc1, hc2, Bool.false_eq_true, if_false,
        Bool.and_eq_true, beq_iff_eq, List.cons.injEq]
      constructor
      · rintro ⟨hct, hlm⟩
        obtain ⟨ts', hts, hk⟩ := (ih ihw ts).mp hlm
        exact ⟨ts', ⟨hct.symm, hts⟩, hk⟩
      · rintro ⟨ts', ⟨htc, hts⟩, hk⟩
        exact ⟨htc.symm, (ih ihw ts).mpr ⟨ts', hts, hk⟩⟩

/-- The pattern `%` matches everything. -/
theorem likeMatch_pct_only (ts : List Char) : likeMatch ['%'] ts = true := by
  show likeAnySuffix (likeMatch []) ts = true
  rw [likeAnySuffix_iff]
  exact ⟨[], List.nil_suffix, rfl⟩

/-- `%lits%` with wildcard-free `lits` holds exactly on texts containing
`lits` as an infix. -/
theorem likeMatch_pct_lit_pct (kw : List Char)
    (hw : ∀ c ∈ kw, (!(c == '%') && !(c == '_')) = true) (hay : List Char) :
    likeMatch ('%' :: (kw ++ ['%'])) hay = true ↔ kw <:+: hay := by
  have h0 : likeMatch ('%' :: (kw ++ ['%'])) hay
      = likeAnySuffix (likeMatch (kw ++ ['%'])) hay := rfl
  rw [h0, likeAnySuffix_iff]
  constructor
  · rintro ⟨ts', hs, hk⟩
    rcases (likeMatch_lit kw hw ['%'] ts').mp hk with ⟨ts'', hts, _⟩
    obtain ⟨s, hs2⟩ := hs
    refine ⟨s, ts'', ?_⟩
    rw [← hs2, hts]
    simp [List.append_assoc]
  · rintro ⟨s, t, hst⟩
    refine ⟨kw ++ t, ⟨s, ?_⟩, ?_⟩
    · rw [← hst]
      simp [List.append_assoc]
    · exact (likeMatch_lit kw hw ['%'] (kw ++ t)).mpr ⟨t, rfl, likeMatch_pct_only t⟩


/-- Lower-casing the pattern `%kw%` lower-cases the keyword and keeps the
percent signs. -/
theorem pyLower_pct_pat (kw : String) :
    (pyLower ("%" ++ kw ++ "%")).data = '%' :: ((pyLower kw).data ++ ['%']) := by
  show (("%" ++ kw ++ "%").data).map Char.toLower = '%' :: ((kw.data.map Char.toLower) ++ ['%'])
  rw [String.data_append, String.data_append]
  simp [show Char.toLower '%' = '%' from rfl]

/-- For a wildcard-free keyword, `ILIKE` on the pattern built from it is
case-insensitive substring containment. -/
theorem ilike_substr (kw field : String) (hw : likeWildcardFree kw = true) :
    ilike field ("%" ++ kw ++ "%") = substrCI kw field := by
  have hw2 : ∀ c ∈ (pyLower kw).data, (!(c == '%') && !(c == '_')) = true := by
    intro c hc
    exact List.all_eq_true.mp hw c hc
  have h1 : ilike field ("%" ++ kw ++ "%") = true ↔ (pyLower kw).data <:+: (pyLower field).data := by
    rw [show ilike field ("%" ++ kw ++ "%")
        = likeMatch (pyLower ("%" ++ kw ++ "%")).data (pyLower field).data from rfl]
    rw [pyLower_pct_pat]
    exact likeMatch_pct_lit_pct (pyLower kw).data hw2 (pyLower field).data
  have h2 : substrCI kw field = true ↔ (pyLower kw).data <:+: (pyLower field).data := by
    unfold substrCI
    exact decide_eq_true_iff
  rw [Bool.eq_iff_iff]
  exact h1.trans h2.symm

/-- The keyword condition under wildcard-free keywords is the substring OR
the specification describes. -/
theorem keywordCond_substr (kws : List String) (a : Article)
    (hw : kws.all likeWildcardFree = true) :
    keywordCond kws a =
      kws.any (fun kw => substrCI kw a.title || substrCI kw a.summary || substrCI kw a.content) := by
  unfold keywordCond
  induction kws with
  | nil => rfl
  | cons k ks ih =>
    simp only [List.all_cons, Bool.and_eq_true] at hw
    simp only [List.any_cons, ih hw.2,
      ilike_substr k a.title hw.1, ilike_substr k a.summary hw.1, ilike_substr k a.content hw.1]

/-- With wildcard-free keywords the code's filter predicate coincides with
the amended specification predicate. -/
theorem matchesFilters_amended (f : SearchFilters) (a : Article)
    (hw : (f.keywords.getD []).all likeWildcardFree = true) :
    matchesFilters f a = matchesFiltersAmended f a := by
  unfold matchesFilters matchesFiltersAmended
  cases hf : f.keywords with
  | none => rfl
  | some kws =>
    cases kws with
    | nil => rfl
    | cons k ks =>
      rw [hf] at hw
      simp only [Option.getD] at hw
      simp only [keywordCond_substr (k :: ks) a hw]



/-- C6 (amended): the pre-pagination result set is exactly the stored
articles satisfying the filter conjunction; every returned item satisfies
it; with wildcard-free keywords the predicate is the claimed
substring/membership semantics, a supplied-but-empty list imposing no
constraint; and an article of level `medium` is never returned when the
threat-level filter is `{high, critical}`. -/
theorem claim6_filter_conjunction :
    (∀ store f a, a ∈ matchedArticles store f ↔ a ∈ store ∧ matchesFilters f a = true) ∧
    (∀ store f page per a, a ∈ (search_articles store f page per).items →
      matchesFilters f a = true) ∧
    (∀ f a, (f.keywords.getD []).all likeWildcardFree = true →
      matchesFilters f a = matchesFiltersAmended f a) ∧
    (∀ store f page per a, f.threat_levels = some ["high", "critical"] →
      a ∈ (search_articles store f page per).items → a.threat_level ≠ "medium") := by
  have hmem : ∀ (store : List Article) f page per a,
      a ∈ (search_articles store f page per).items → matchesFilters f a = true := by
    intro store f page per a ha
    have h1 : a ∈ sortByPublishedDesc (matchedArticles store f) :=
      List.mem_of_mem_drop (List.mem_of_mem_take ha)
    unfold sortByPublishedDesc at h1
    have h2 : a ∈ matchedArticles store f := (List.perm_insertionSort _ _).mem_iff.mp h1
    exact (List.mem_filter.mp h2).2
  refine ⟨?_, hmem, ?_, ?_⟩
  · intro store f a
    simp [matchedArticles, List.mem_filter]
  · intro f a hw
    exact matchesFilters_amended f a hw
  · intro store f page per a hf ha
    have hm := hmem store f page per a ha
    unfold matchesFilters at hm
    rw [hf] at hm
    simp only [Bool.and_eq_true] at hm
    have hb := hm.1.1.1.1.2
    intro hmed
    rw [hmed] at hb
    exact absurd hb (by decide)


/-- C6 counterexample: the keyword consisting of one percent sign (a LIKE
wildcard) matches an article containing no percent sign, and a
supplied-but-empty threat-level list (falsy in Python) imposes no
constraint — in both cases the query returns an article that the claim's
predicate, as stated, excludes. -/
theorem claim6_counterexample :
    ((search_articles [artHello] ⟨some ["%"], none, none, none, none, none⟩ 1 20).items
        = [artHello] ∧
      matchesFiltersClaim ⟨some ["%"], none, none, none, none, none⟩ artHello = false) ∧
    ((search_articles [artHello] ⟨none, some [], none, none, none, none⟩ 1 20).items
        = [artHello] ∧
      matchesFiltersClaim ⟨none, some [], none, none, none, none⟩ artHello = false) := by
  exact ⟨⟨by decide, by decide⟩, ⟨by decide, by decide⟩⟩

/-- C6 witness: the amended equivalence applied to a wildcard-free keyword
filter, and the threat-level law applied to a stored `high` article. -/
theorem claim6_witness :
    matchesFilters ⟨some ["ransom"], some ["high", "critical"], none, none, none, none⟩
        artHello =
      matchesFiltersAmended ⟨some ["ransom"], some ["high", "critical"], none, none, none,
        none⟩ artHello ∧
    artHigh.threat_level ≠ "medium" := by
  constructor
  · exact claim6_filter_conjunction.2.2.1 _ artHello (by decide)
  · exact claim6_filter_conjunction.2.2.2 [artHigh]
      ⟨none, some ["high", "critical"], none, none, none, none⟩ 1 20 artHigh rfl (by decide)

end ChakraWatch
